import Mathlib

/-
Verification of the Redaction Pipeline of the SmurfsProject repository.

Shallow embedding of the core logic of `src/app/frontend/(tabs)/Ocr.tsx`:
the sensitivity classifier (`isSensitiveBox`), the geometry engine
(`computeDisplayedRect`, `projectBox`), the enrichment coordinator
(`runNERForBoxes`) and the session state updates triggered by
`pickImage` / `onWebViewMessage`.

Numbers: source code computes with JavaScript binary64 numbers.  All the
concrete inputs in the claims produce dyadic rationals, on which binary64
arithmetic is exact, so the main embedding uses `ℚ`.  Where a claim is
about non-finite results of dividing by zero (IEEE semantics), a dedicated
type `JSNum` with the IEEE special values is used; its finite arithmetic
is exact rational arithmetic (rounding and overflow of finite operations
never matter for the finiteness facts proved here, and the signed zero of
IEEE is not modelled: every zero is treated as +0, which matches the
nonnegative layout sizes the code feeds in).
-/

namespace SmurfsProject

/-- Data model: natural pixel size of the source image (`imageSize` in the
source, fields `width`, `height`). -/
structure ImageSize where
  width : ℚ
  height : ℚ
deriving DecidableEq

/-- Data model: bounding box of one recognized word in image pixels
(`bbox: { x0; y0; x1; y1 }` in the source). -/
structure BBox where
  x0 : ℚ
  y0 : ℚ
  x1 : ℚ
  y1 : ℚ
deriving DecidableEq

/-- Data model: one entity classification (`NEREntity` in the source:
`{ entity; word; score; start; end }`).  The source declares `score` as a
number, but `isSensitiveBox` defends against an absent score with
`e.score ?? 0`, so the embedding makes it optional.  The source field
`end` is a reserved word in Lean and is renamed `stop`. -/
structure NEREntity where
  entity : String
  word : String
  score : Option ℚ
  start : Nat
  stop : Nat
deriving DecidableEq

/-- Data model: one recognized word (`OCRBox` in the source:
`{ text; bbox; confidence? }`). -/
structure OCRBox where
  text : String
  bbox : BBox
  confidence : Option ℚ
deriving DecidableEq

/-- Data model: a recognized word enriched with its entity classifications
(`OCRBoxWithNER = OCRBox & { entities: NEREntity[] }` in the source). -/
structure OCRBoxWithNER extends OCRBox where
  entities : List NEREntity
deriving DecidableEq

/-- Data model: a raw OCR result (`OCRResult` in the source:
`{ text; boxes; imageSize }`). -/
structure OCRResult where
  text : String
  boxes : List OCRBox
  imageSize : ImageSize
deriving DecidableEq

/-- Data model: an enriched OCR result (`OCRResultWithNER` in the source). -/
structure OCRResultWithNER where
  text : String
  boxes : List OCRBoxWithNER
  imageSize : ImageSize
deriving DecidableEq

/-- Source constant `MIN_ENTITY_SCORE = 0.85` (Ocr.tsx line 69). -/
def MIN_ENTITY_SCORE : ℚ := 0.85

/-- Source constant `SENSITIVE_CATEGORIES` (Ocr.tsx lines 70 to 88).  The
source stores the labels in a `Set`; only membership is ever used, so a
list with the same elements is an equivalent embedding. -/
def SENSITIVE_CATEGORIES : List String :=
  ["ACCOUNTNUM", "BUILDINGNUM", "CITY", "CREDITCARDNUMBER", "DATEOFBIRTH",
   "DRIVERLICENSENUM", "EMAIL", "GIVENNAME", "IDCARDNUM", "PASSWORD",
   "SOCIALNUM", "STREET", "SURNAME", "TAXNUM", "TELEPHONENUM", "USERNAME",
   "ZIPCODE"]

/-- Body of `isSensitiveBox` (Ocr.tsx lines 90 to 96) with the score
threshold abstracted as a parameter; the source hard codes
`MIN_ENTITY_SCORE` (see `isSensitiveBox` below).  The guard on an empty
`entities` array and the `e.score ?? 0` null coalescing are translated
literally (`Option.getD` is exactly `?? 0`; a null `entities` array
cannot occur in the typed model). -/
def isSensitiveBoxAt (minScore : ℚ) (b : OCRBoxWithNER) : Bool :=
  if b.entities.length = 0 then false
  else b.entities.any fun e =>
    SENSITIVE_CATEGORIES.contains e.entity && decide (minScore ≤ e.score.getD 0)

/-- Source `isSensitiveBox` (Ocr.tsx lines 90 to 96). -/
def isSensitiveBox (b : OCRBoxWithNER) : Bool :=
  isSensitiveBoxAt MIN_ENTITY_SCORE b

/-- Return type of `computeDisplayedRect`. -/
structure DisplayedRect where
  displayedW : ℚ
  displayedH : ℚ
  offsetX : ℚ
  offsetY : ℚ
deriving DecidableEq

/-- Source `computeDisplayedRect` (Ocr.tsx lines 99 to 133).  The local
bindings of the source are inlined: in the wide branch
`displayedH = containerW / imgR`, in the other branch
`displayedW = containerH * imgR`.  The JavaScript falsiness guard
`!imageW || !imageH` on a (non NaN) number means equality with zero. -/
def computeDisplayedRect (containerW containerH imageW imageH : ℚ) :
    DisplayedRect :=
  if imageW = 0 ∨ imageH = 0 then
    ⟨containerW, containerH, 0, 0⟩
  else if containerW / containerH < imageW / imageH then
    ⟨containerW, containerW / (imageW / imageH), 0,
      (containerH - containerW / (imageW / imageH)) / 2⟩
  else
    ⟨containerH * (imageW / imageH), containerH,
      (containerW - containerH * (imageW / imageH)) / 2, 0⟩

/-- Return type of `projectBox`. -/
structure ProjRect where
  left : ℚ
  top : ℚ
  width : ℚ
  height : ℚ
deriving DecidableEq

/-- Source constant `pad = 2` inside `projectBox` (Ocr.tsx line 152). -/
def pad : ℚ := 2

/-- Source `projectBox` (Ocr.tsx lines 136 to 158) over exact rationals:
`sx = displayedW / imageW`, `sy = displayedH / imageH`, then the affine
map with the display space padding. -/
def projectBox (bbox : BBox) (imgSize : ImageSize)
    (containerW containerH : ℚ) : ProjRect :=
  let d := computeDisplayedRect containerW containerH imgSize.width imgSize.height
  let sx := d.displayedW / imgSize.width
  let sy := d.displayedH / imgSize.height
  { left := d.offsetX + bbox.x0 * sx - pad
    top := d.offsetY + bbox.y0 * sy - pad
    width := (bbox.x1 - bbox.x0) * sx + pad * 2
    height := (bbox.y1 - bbox.y0) * sy + pad * 2 }

/-- IEEE style number for modelling JavaScript arithmetic where division
by zero matters: a finite value (exact rational), the two infinities, or
NaN.  Finite operations are exact; signed zero is not modelled. -/
inductive JSNum where
  | num : ℚ → JSNum
  | posInf : JSNum
  | negInf : JSNum
  | nan : JSNum
deriving DecidableEq

/-- A `JSNum` is finite when it is an ordinary number. -/
def JSNum.isFinite : JSNum → Bool
  | .num _ => true
  | _ => false

/-- JavaScript addition on `JSNum` (IEEE rules for the special values). -/
def JSNum.add : JSNum → JSNum → JSNum
  | .nan, _ => .nan
  | _, .nan => .nan
  | .num a, .num b => .num (a + b)
  | .num _, .posInf => .posInf
  | .num _, .negInf => .negInf
  | .posInf, .num _ => .posInf
  | .posInf, .posInf => .posInf
  | .posInf, .negInf => .nan
  | .negInf, .num _ => .negInf
  | .negInf, .negInf => .negInf
  | .negInf, .posInf => .nan

/-- JavaScript negation on `JSNum`. -/
def JSNum.neg : JSNum → JSNum
  | .num a => .num (-a)
  | .posInf => .negInf
  | .negInf => .posInf
  | .nan => .nan

/-- JavaScript subtraction on `JSNum`. -/
def JSNum.sub (a b : JSNum) : JSNum := a.add b.neg

/-- JavaScript multiplication on `JSNum` (IEEE rules: an infinity times
zero is NaN, otherwise an infinity with the product sign). -/
def JSNum.mul : JSNum → JSNum → JSNum
  | .nan, _ => .nan
  | _, .nan => .nan
  | .num a, .num b => .num (a * b)
  | .num a, .posInf => if a = 0 then .nan else if 0 < a then .posInf else .negInf
  | .num a, .negInf => if a = 0 then .nan else if 0 < a then .negInf else .posInf
  | .posInf, .num b => if b = 0 then .nan else if 0 < b then .posInf else .negInf
  | .negInf, .num b => if b = 0 then .nan else if 0 < b then .negInf else .posInf
  | .posInf, .posInf => .posInf
  | .posInf, .negInf => .negInf
  | .negInf, .posInf => .negInf
  | .negInf, .negInf => .posInf

/-- JavaScript division on `JSNum` (IEEE rules: a nonzero finite value
divided by zero gives a signed infinity, zero by zero gives NaN). -/
def JSNum.div : JSNum → JSNum → JSNum
  | .nan, _ => .nan
  | _, .nan => .nan
  | .num a, .num b =>
      if b = 0 then (if a = 0 then .nan else if 0 < a then .posInf else .negInf)
      else .num (a / b)
  | .num _, .posInf => .num 0
  | .num _, .negInf => .num 0
  | .posInf, .num b => if 0 ≤ b then .posInf else .negInf
  | .negInf, .num b => if 0 ≤ b then .negInf else .posInf
  | .posInf, .posInf => .nan
  | .posInf, .negInf => .nan
  | .negInf, .posInf => .nan
  | .negInf, .negInf => .nan

/-- Return type of `projectBoxJS`. -/
structure JSRect where
  left : JSNum
  top : JSNum
  width : JSNum
  height : JSNum
deriving DecidableEq

/-- Source `projectBox` (Ocr.tsx lines 136 to 158) with the arithmetic
that follows the scale factor derivation carried out in JavaScript number
semantics, so that the division by a zero image dimension behaves as in
the source.  The call to `computeDisplayedRect` reuses the rational
embedding: when an image dimension is zero the guard branch is taken and
the two embeddings agree.  The difference `x1 - x0` of finite inputs is
finite in both models. -/
def projectBoxJS (bbox : BBox) (imgSize : ImageSize)
    (containerW containerH : ℚ) : JSRect :=
  let d := computeDisplayedRect containerW containerH imgSize.width imgSize.height
  let sx := JSNum.div (.num d.displayedW) (.num imgSize.width)
  let sy := JSNum.div (.num d.displayedH) (.num imgSize.height)
  let padJ : JSNum := .num pad
  { left := JSNum.sub (JSNum.add (.num d.offsetX) (JSNum.mul (.num bbox.x0) sx)) padJ
    top := JSNum.sub (JSNum.add (.num d.offsetY) (JSNum.mul (.num bbox.y0) sy)) padJ
    width := JSNum.add (JSNum.mul (.num (bbox.x1 - bbox.x0)) sx) (JSNum.mul padJ (.num 2))
    height := JSNum.add (JSNum.mul (.num (bbox.y1 - bbox.y0)) sy) (JSNum.mul padJ (.num 2)) }

/-- Enrichment loop of `runNERForBoxes` (Ocr.tsx lines 309 to 326),
instrumented with the sequence of classifier calls it issues.  The
external classifier `runNER` is modelled as an oracle `classify` indexed
by the position of the call in the sequential loop (the calls are awaited
one at a time, so the i-th call is the one for the i-th box); a `none`
outcome models a thrown error (the `catch` branch attaches `[]`), and the
`entities || []` null coalescing of a success is folded into the oracle
returning the empty list, which is observationally identical.  The first
component is the enriched box list, the second the texts passed to the
classifier, in call order. -/
def enrichAux (classify : Nat → String → Option (List NEREntity)) :
    Nat → List OCRBox → List OCRBoxWithNER × List String
  | _, [] => ([], [])
  | i, box :: rest =>
      ((⟨box, (classify i box.text).getD []⟩ : OCRBoxWithNER)
          :: (enrichAux classify (i + 1) rest).1,
        box.text :: (enrichAux classify (i + 1) rest).2)

/-- Source `runNERForBoxes` (Ocr.tsx lines 309 to 326): every box of the
record is enriched in order, and the record is returned with the enriched
box list (`{ ...record, boxes: updatedBoxes }`). -/
def runNERForBoxes (classify : Nat → String → Option (List NEREntity))
    (record : OCRResult) : OCRResultWithNER :=
  { text := record.text
    boxes := (enrichAux classify 0 record.boxes).1
    imageSize := record.imageSize }

/-- The texts sent to the classifier by `runNERForBoxes`, in call order
(the loop body always evaluates `runNER(box.text)`). -/
def nerCalls (classify : Nat → String → Option (List NEREntity))
    (record : OCRResult) : List String :=
  (enrichAux classify 0 record.boxes).2

/-- The component state touched by the claims: the selected image
(`imageUri`), the enriched results (`results`), and the set of OCR
records whose enrichment has been started but whose continuation has not
yet run (`pending`, a modelling device for the promise returned by
`runNERForBoxes` inside `onWebViewMessage`). -/
structure SessionState where
  imageUri : Option String
  results : Option OCRResultWithNER
  pending : List OCRResult
deriving DecidableEq

/-- Events of the session, as the code reacts to them:
`pickImage uri` is the completion of `pickImage` (Ocr.tsx lines 245 to
260), which only runs `setImageUri`; `ocrSuccess record` is the success
branch of `onWebViewMessage` (Ocr.tsx lines 287 to 296), which starts
`runNERForBoxes(record)`; `enrichDone record` is the resolution of that
promise, whose `.then` callback runs `setResults` unconditionally
(Ocr.tsx line 294 to 295). -/
inductive SessionEvent where
  | pickImage (uri : String)
  | ocrSuccess (record : OCRResult)
  | enrichDone (record : OCRResult)
deriving DecidableEq

/-- Initial session state: no image, no results, nothing in flight. -/
def initialState : SessionState := ⟨none, none, []⟩

/-- One step of the session.  Translated from the source: `pickImage`
sets only `imageUri` (it clears nothing else); the OCR success branch
starts an enrichment; the enrichment continuation stores the enriched
record with `setResults` with no staleness check of any kind.  The
membership test on `pending` only enforces that an `enrichDone` event
corresponds to an enrichment that was actually started and is still
outstanding; it does not model any check present in the code. -/
def stepSession (classify : Nat → String → Option (List NEREntity))
    (s : SessionState) : SessionEvent → SessionState
  | .pickImage uri => { s with imageUri := some uri }
  | .ocrSuccess record => { s with pending := s.pending ++ [record] }
  | .enrichDone record =>
      if record ∈ s.pending then
        { s with
            pending := s.pending.erase record
            results := some (runNERForBoxes classify record) }
      else s

/-- Run a sequence of session events from the initial state. -/
def runSession (classify : Nat → String → Option (List NEREntity))
    (events : List SessionEvent) : SessionState :=
  events.foldl (stepSession classify) initialState

/-- Concrete entity used by the stale run scenario. -/
def demoEntity : NEREntity := ⟨"EMAIL", "a@b.c", some (9/10), 0, 5⟩

/-- Concrete OCR box of the stale run scenario. -/
def staleBox : OCRBox := ⟨"a@b.c", ⟨0, 0, 10, 10⟩, some 90⟩

/-- Concrete OCR record of the stale run: the run whose enrichment is
outstanding when the user picks a new image. -/
def staleRecord : OCRResult := ⟨"a@b.c", [staleBox], ⟨100, 50⟩⟩

/-- Concrete classifier oracle: always succeeds with one EMAIL entity. -/
def demoClassify : Nat → String → Option (List NEREntity) :=
  fun _ _ => some [demoEntity]

/-- Concrete OCR box with empty source text. -/
def emptyTextBox : OCRBox := ⟨"", ⟨0, 0, 5, 5⟩, some 10⟩

/-- Concrete OCR record containing only the empty text box. -/
def emptyTextRecord : OCRResult := ⟨"", [emptyTextBox], ⟨20, 20⟩⟩

/-- Concrete entity that a classifier could return for the empty string. -/
def emptyTextEntity : NEREntity := ⟨"EMAIL", "", some (9/10), 0, 0⟩

/-- Concrete classifier oracle returning `emptyTextEntity` for any call. -/
def emptyTextClassify : Nat → String → Option (List NEREntity) :=
  fun _ _ => some [emptyTextEntity]

/-- Witness data: first box of the partial failure scenario. -/
def wBox0 : OCRBox := ⟨"alice@example.com", ⟨0, 0, 50, 10⟩, some 95⟩

/-- Witness data: second box of the partial failure scenario, the one
whose classification call fails. -/
def wBox1 : OCRBox := ⟨"password123", ⟨0, 12, 50, 22⟩, some 90⟩

/-- Witness data: third box of the partial failure scenario. -/
def wBox2 : OCRBox := ⟨"hello", ⟨0, 24, 50, 34⟩, some 80⟩

/-- Witness data: the three box record of the partial failure scenario. -/
def wRecord : OCRResult :=
  ⟨"alice@example.com password123 hello", [wBox0, wBox1, wBox2], ⟨100, 40⟩⟩

/-- Witness data: entity returned for the first box. -/
def wEnt0 : NEREntity := ⟨"EMAIL", "alice@example.com", some (95/100), 0, 17⟩

/-- Witness data: entity returned for the third box. -/
def wEnt2 : NEREntity := ⟨"USERNAME", "hello", some (1/2), 0, 5⟩

/-- Witness data: classifier oracle that throws exactly on the second
call and succeeds on the others. -/
def wClassify : Nat → String → Option (List NEREntity) :=
  fun i _ => if i = 0 then some [wEnt0] else if i = 1 then none else some [wEnt2]

/-- Witness data: the per index successful entity sequences. -/
def wEs : Nat → List NEREntity := fun i => if i = 0 then [wEnt0] else [wEnt2]

/-- Witness data: an enriched box holding one EMAIL entity with score
9/10, used for the threshold monotonicity witness. -/
def wSensBox : OCRBoxWithNER :=
  ⟨⟨"alice@example.com", ⟨0, 0, 50, 10⟩, some 95⟩,
    [⟨"EMAIL", "alice@example.com", some (9/10), 0, 17⟩]⟩

/-- Witness data: an enriched box whose single entity has a sensitive
category but no score field. -/
def wNoScoreBox : OCRBoxWithNER :=
  ⟨⟨"alice@example.com", ⟨0, 0, 50, 10⟩, some 95⟩,
    [⟨"EMAIL", "alice@example.com", none, 0, 17⟩]⟩

/-- Helper: enrichment preserves each box (text, bbox, confidence) and
the order of the boxes. -/
theorem enrichAux_fst_map (classify : Nat → String → Option (List NEREntity))
    (k : Nat) (boxes : List OCRBox) :
    (enrichAux classify k boxes).1.map (fun b => b.toOCRBox) = boxes := by
  induction boxes generalizing k with
  | nil => rfl
  | cons b rest ih => simp [enrichAux, ih]

/-- Helper: the classifier call trace is exactly the box texts in order. -/
theorem enrichAux_snd (classify : Nat → String → Option (List NEREntity))
    (k : Nat) (boxes : List OCRBox) :
    (enrichAux classify k boxes).2 = boxes.map (fun b => b.text) := by
  induction boxes generalizing k with
  | nil => rfl
  | cons b rest ih => simp [enrichAux, ih]

/-- Helper: the entities attached to the i-th box are exactly what the
i-th classifier call returned, with a thrown call giving the empty list. -/
theorem enrichAux_get (classify : Nat → String → Option (List NEREntity))
    (k i : Nat) (boxes : List OCRBox) :
    ((enrichAux classify k boxes).1.get? i).map (fun b => b.entities)
      = (boxes.get? i).map (fun b => (classify (k + i) b.text).getD []) := by
  induction boxes generalizing k i with
  | nil => rfl
  | cons b rest ih =>
    cases i with
    | zero => simp [enrichAux]
    | succ n =>
      have harith : k + 1 + n = k + (n + 1) := by omega
      simp only [enrichAux, List.get?_cons_succ]
      rw [ih (k + 1) n, harith]

/-- Helper: on an optional score, `?? 0` meets a positive threshold
exactly when the score is present and meets it. -/
theorem score_getD_iff (o : Option ℚ) (T : ℚ) (hT : 0 < T) :
    (T ≤ o.getD 0) ↔ ∃ s, o = some s ∧ T ≤ s := by
  cases o with
  | none => simpa using hT
  | some s => simp

/-- Helper: under a nonnegative container width and positive image
dimensions, both displayed dimensions are nonnegative. -/
theorem displayedRect_nonneg (cW cH iW iH : ℚ)
    (hcW : 0 ≤ cW) (hiW : 0 < iW) (hiH : 0 < iH) :
    0 ≤ (computeDisplayedRect cW cH iW iH).displayedW ∧
    0 ≤ (computeDisplayedRect cW cH iW iH).displayedH := by
  have himgR : 0 < iW / iH := div_pos hiW hiH
  unfold computeDisplayedRect
  rw [if_neg (by push_neg; exact ⟨ne_of_gt hiW, ne_of_gt hiH⟩)]
  by_cases hbr : cW / cH < iW / iH
  · rw [if_pos hbr]
    exact ⟨hcW, div_nonneg hcW (le_of_lt himgR)⟩
  · rw [if_neg hbr]
    push_neg at hbr
    have h0 : 0 < cW / cH := lt_of_lt_of_le himgR hbr
    have hcH : 0 < cH := by
      rcases div_pos_iff.mp h0 with ⟨h1, h2⟩ | ⟨h1, h2⟩
      · exact h2
      · linarith
    exact ⟨mul_nonneg (le_of_lt hcH) (le_of_lt himgR), le_of_lt hcH⟩

/-- Helper: division of a plain number by the number zero is never
finite (IEEE: signed infinity for a nonzero numerator, NaN for zero). -/
theorem JSNum.div_num_zero (a : ℚ) :
    (JSNum.div (.num a) (.num 0)).isFinite = false := by
  simp only [JSNum.div]
  split_ifs <;> simp_all [JSNum.isFinite]

/-- Helper: multiplying a plain number by a non finite value is never
finite. -/
theorem JSNum.num_mul_nonfin (a : ℚ) (x : JSNum) (hx : x.isFinite = false) :
    (JSNum.mul (.num a) x).isFinite = false := by
  cases x with
  | num b => simp [JSNum.isFinite] at hx
  | posInf => simp only [JSNum.mul]; split_ifs <;> rfl
  | negInf => simp only [JSNum.mul]; split_ifs <;> rfl
  | nan => rfl

/-- Helper: adding a non finite value to a plain number is never
finite. -/
theorem JSNum.num_add_nonfin (a : ℚ) (x : JSNum) (hx : x.isFinite = false) :
    (JSNum.add (.num a) x).isFinite = false := by
  cases x with
  | num b => simp [JSNum.isFinite] at hx
  | posInf => rfl
  | negInf => rfl
  | nan => rfl

/-- Helper: adding a plain number to a non finite value is never
finite. -/
theorem JSNum.nonfin_add_num (x : JSNum) (a : ℚ) (hx : x.isFinite = false) :
    (JSNum.add x (.num a)).isFinite = false := by
  cases x with
  | num b => simp [JSNum.isFinite] at hx
  | posInf => rfl
  | negInf => rfl
  | nan => rfl

/-- Helper: subtracting a plain number from a non finite value is never
finite. -/
theorem JSNum.nonfin_sub_num (x : JSNum) (a : ℚ) (hx : x.isFinite = false) :
    (JSNum.sub x (.num a)).isFinite = false := by
  cases x with
  | num b => simp [JSNum.isFinite] at hx
  | posInf => rfl
  | negInf => rfl
  | nan => rfl

/-- Claim C1: the claim says a stale enriched result is never applied to
the state of a new session.  The code refutes it: in the interleaving
where the OCR response for `staleRecord` arrives, then `pickImage`
completes for a new image, then the enrichment of the stale run
completes, the unconditional `setResults` of the stale continuation
stores the stale enriched record as the results of the new session (and
`pickImage` itself clears nothing but `imageUri`). -/
theorem staleEnrichment_overwrites_new_session :
    runSession demoClassify
        [SessionEvent.ocrSuccess staleRecord, SessionEvent.pickImage "new.jpg",
          SessionEvent.enrichDone staleRecord]
      = { imageUri := some "new.jpg",
          results := some (runNERForBoxes demoClassify staleRecord),
          pending := [] } := by
  rfl

/-- Claim C2, counterexample: for the 400 by 200 image in a 300 by 280
container, the claimed projection of the box (100, 50, 200, 80) with
pad 2, namely left 73, top 102.5, width 73, height 26.5, is not what the
code returns (the code returns top 100.5 and width 79). -/
theorem scenario_projection_claim_false :
    ¬ (computeDisplayedRect 300 280 400 200 = ⟨300, 150, 0, 65⟩ ∧
        projectBox ⟨100, 50, 200, 80⟩ ⟨400, 200⟩ 300 280
          = ⟨73, 102.5, 73, 26.5⟩) := by
  norm_num [projectBox, computeDisplayedRect, pad]

/-- Claim C2, amended: for the 400 by 200 image in a 300 by 280
container, `computeDisplayedRect` returns displayedW 300, displayedH 150,
offsetX 0, offsetY 65; the per axis scales are both 0.75; and the box
(100, 50, 200, 80) with pad 2 projects to left 73, top 100.5, width 79,
height 26.5 (top is offsetY + y0 times sy minus pad, width is the box
width times sx plus twice the pad). -/
theorem scenario_projection_values :
    computeDisplayedRect 300 280 400 200 = ⟨300, 150, 0, 65⟩ ∧
    (computeDisplayedRect 300 280 400 200).displayedW / 400 = 0.75 ∧
    (computeDisplayedRect 300 280 400 200).displayedH / 200 = 0.75 ∧
    projectBox ⟨100, 50, 200, 80⟩ ⟨400, 200⟩ 300 280
      = ⟨73, 100.5, 79, 26.5⟩ := by
  norm_num [projectBox, computeDisplayedRect, pad]

/-- Claim C3, counterexample: the claim says a word with empty source
text is skipped (no classification request) and keeps empty entities.
The loop of `runNERForBoxes` has no such guard: for a record holding one
box with empty text, a classification call with the empty string is
issued, and the word ends with whatever entities that call returned,
here a non empty list. -/
theorem emptyText_word_gets_request :
    emptyTextBox.text = "" ∧
    nerCalls emptyTextClassify emptyTextRecord = [""] ∧
    (runNERForBoxes emptyTextClassify emptyTextRecord).boxes.map
        (fun b => b.entities) = [[emptyTextEntity]] ∧
    [[emptyTextEntity]] ≠ ([[]] : List (List NEREntity)) := by
  refine ⟨rfl, rfl, rfl, by simp⟩

/-- Claim C3, amended: `runNERForBoxes` issues a classification request
for every word of the record, including words with empty source text
(the call trace is exactly the per word texts in order), and each word
ends with exactly the entities its own call returned, the empty list
when the call failed. -/
theorem runNERForBoxes_calls_every_box
    (classify : Nat → String → Option (List NEREntity)) (record : OCRResult) :
    nerCalls classify record = record.boxes.map (fun b => b.text) ∧
    ∀ i : Nat,
      ((runNERForBoxes classify record).boxes.get? i).map (fun b => b.entities)
        = (record.boxes.get? i).map (fun b => (classify i b.text).getD []) := by
  refine ⟨enrichAux_snd classify 0 record.boxes, ?_⟩
  intro i
  have h := enrichAux_get classify 0 i record.boxes
  simpa [runNERForBoxes, nerCalls] using h

/-- Claim C4: if the classification call fails for exactly the j-th word
and succeeds for every other word, enrichment still completes: the boxes
are all preserved in order, the j-th word carries the empty entity
sequence, and every other word carries exactly the entity sequence its
own call returned. -/
theorem single_failure_tolerated
    (classify : Nat → String → Option (List NEREntity)) (record : OCRResult)
    (es : Nat → List NEREntity) (j : Nat) (bj : OCRBox)
    (hj : record.boxes.get? j = some bj)
    (hfail : classify j bj.text = none)
    (hsucc : ∀ i bi, i ≠ j → record.boxes.get? i = some bi →
        classify i bi.text = some (es i)) :
    (runNERForBoxes classify record).boxes.map (fun b => b.toOCRBox)
        = record.boxes ∧
    ((runNERForBoxes classify record).boxes.get? j).map (fun b => b.entities)
        = some [] ∧
    ∀ i bi, i ≠ j → record.boxes.get? i = some bi →
      ((runNERForBoxes classify record).boxes.get? i).map (fun b => b.entities)
        = some (es i) := by
  refine ⟨enrichAux_fst_map classify 0 record.boxes, ?_, ?_⟩
  · have h := enrichAux_get classify 0 j record.boxes
    simp only [runNERForBoxes]
    rw [h, hj]
    simp [hfail]
  · intro i bi hne hget
    have h := enrichAux_get classify 0 i record.boxes
    simp only [runNERForBoxes]
    rw [h, hget]
    simp [hsucc i bi hne hget]

/-- Witness for claim C4, at the concrete three word record `wRecord`
with the classifier failing exactly on the second word. -/
theorem single_failure_tolerated_witness :
    (runNERForBoxes wClassify wRecord).boxes.map (fun b => b.toOCRBox)
        = wRecord.boxes ∧
    ((runNERForBoxes wClassify wRecord).boxes.get? 1).map (fun b => b.entities)
        = some [] ∧
    ∀ i bi, i ≠ 1 → wRecord.boxes.get? i = some bi →
      ((runNERForBoxes wClassify wRecord).boxes.get? i).map (fun b => b.entities)
        = some (wEs i) := by
  refine single_failure_tolerated wClassify wRecord wEs 1 wBox1 rfl rfl ?_
  intro i bi hne hget
  rcases i with _ | i
  · have h0 : wRecord.boxes.get? 0 = some wBox0 := rfl
    rw [h0] at hget
    injection hget with h
    subst h
    rfl
  · rcases i with _ | i
    · exact absurd rfl hne
    · rcases i with _ | i
      · have h2 : wRecord.boxes.get? 2 = some wBox2 := rfl
        rw [h2] at hget
        injection hget with h
        subst h
        rfl
      · simp [wRecord] at hget

/-- Claim C5: for positive container and image dimensions, the rectangle
of `computeDisplayedRect` is fully contained in the container
(nonnegative offsets, offset plus extent at most the container extent),
touches a pair of opposite container edges (full width or full height),
and preserves the image aspect ratio exactly. -/
theorem computeDisplayedRect_contained (cW cH iW iH : ℚ)
    (hcW : 0 < cW) (hcH : 0 < cH) (hiW : 0 < iW) (hiH : 0 < iH) :
    0 ≤ (computeDisplayedRect cW cH iW iH).offsetX ∧
    0 ≤ (computeDisplayedRect cW cH iW iH).offsetY ∧
    (computeDisplayedRect cW cH iW iH).offsetX
        + (computeDisplayedRect cW cH iW iH).displayedW ≤ cW ∧
    (computeDisplayedRect cW cH iW iH).offsetY
        + (computeDisplayedRect cW cH iW iH).displayedH ≤ cH ∧
    ((computeDisplayedRect cW cH iW iH).displayedW = cW ∨
        (computeDisplayedRect cW cH iW iH).displayedH = cH) ∧
    (computeDisplayedRect cW cH iW iH).displayedW
        / (computeDisplayedRect cW cH iW iH).displayedH = iW / iH := by
  have himgR : 0 < iW / iH := div_pos hiW hiH
  unfold computeDisplayedRect
  rw [if_neg (by push_neg; exact ⟨ne_of_gt hiW, ne_of_gt hiH⟩)]
  by_cases hbr : cW / cH < iW / iH
  · rw [if_pos hbr]
    have hdH_pos : 0 < cW / (iW / iH) := div_pos hcW himgR
    have hdH_le : cW / (iW / iH) ≤ cH := by
      rw [div_le_iff₀ himgR]
      have h2 : cW < iW / iH * cH := (div_lt_iff₀ hcH).mp hbr
      linarith
    refine ⟨le_refl 0, by dsimp only; linarith, by dsimp only; linarith,
      by dsimp only; linarith, Or.inl rfl, ?_⟩
    dsimp only
    rw [div_div_eq_mul_div, mul_comm, mul_div_assoc, div_self (ne_of_gt hcW),
      mul_one]
  · rw [if_neg hbr]
    push_neg at hbr
    have hdW_pos : 0 < cH * (iW / iH) := mul_pos hcH himgR
    have hdW_le : cH * (iW / iH) ≤ cW := by
      have h2 : iW / iH * cH ≤ cW := (le_div_iff₀ hcH).mp hbr
      linarith
    refine ⟨by dsimp only; linarith, le_refl 0, by dsimp only; linarith,
      by dsimp only; linarith, Or.inr rfl, ?_⟩
    dsimp only
    exact mul_div_cancel_left₀ _ (ne_of_gt hcH)

/-- Witness for claim C5, at container 300 by 280 and image 400 by 200. -/
theorem computeDisplayedRect_contained_witness :
    0 ≤ (computeDisplayedRect 300 280 400 200).offsetX ∧
    0 ≤ (computeDisplayedRect 300 280 400 200).offsetY ∧
    (computeDisplayedRect 300 280 400 200).offsetX
        + (computeDisplayedRect 300 280 400 200).displayedW ≤ 300 ∧
    (computeDisplayedRect 300 280 400 200).offsetY
        + (computeDisplayedRect 300 280 400 200).displayedH ≤ 280 ∧
    ((computeDisplayedRect 300 280 400 200).displayedW = 300 ∨
        (computeDisplayedRect 300 280 400 200).displayedH = 280) ∧
    (computeDisplayedRect 300 280 400 200).displayedW
        / (computeDisplayedRect 300 280 400 200).displayedH
      = (400 : ℚ) / 200 :=
  computeDisplayedRect_contained 300 280 400 200 (by norm_num) (by norm_num)
    (by norm_num) (by norm_num)

/-- Claim C6: for a box fully inside the image bounds (and a
nonnegative container width, the only constraint on the container the
conclusion needs), the projected rectangle with its padding removed lies
fully inside the displayed rectangle. -/
theorem projectBox_inside_displayed (bbox : BBox) (iW iH cW cH : ℚ)
    (hcW : 0 ≤ cW) (hiW : 0 < iW) (hiH : 0 < iH)
    (hx0 : 0 ≤ bbox.x0) (hx01 : bbox.x0 ≤ bbox.x1) (hx1 : bbox.x1 ≤ iW)
    (hy0 : 0 ≤ bbox.y0) (hy01 : bbox.y0 ≤ bbox.y1) (hy1 : bbox.y1 ≤ iH) :
    (computeDisplayedRect cW cH iW iH).offsetX
        ≤ (projectBox bbox ⟨iW, iH⟩ cW cH).left + pad ∧
    (projectBox bbox ⟨iW, iH⟩ cW cH).left + pad
        + ((projectBox bbox ⟨iW, iH⟩ cW cH).width - 2 * pad)
      ≤ (computeDisplayedRect cW cH iW iH).offsetX
        + (computeDisplayedRect cW cH iW iH).displayedW ∧
    (computeDisplayedRect cW cH iW iH).offsetY
        ≤ (projectBox bbox ⟨iW, iH⟩ cW cH).top + pad ∧
    (projectBox bbox ⟨iW, iH⟩ cW cH).top + pad
        + ((projectBox bbox ⟨iW, iH⟩ cW cH).height - 2 * pad)
      ≤ (computeDisplayedRect cW cH iW iH).offsetY
        + (computeDisplayedRect cW cH iW iH).displayedH := by
  obtain ⟨hdW, hdH⟩ := displayedRect_nonneg cW cH iW iH hcW hiW hiH
  set d := computeDisplayedRect cW cH iW iH with hd
  have hsx : 0 ≤ d.displayedW / iW := div_nonneg hdW (le_of_lt hiW)
  have hsy : 0 ≤ d.displayedH / iH := div_nonneg hdH (le_of_lt hiH)
  have hx1sx : bbox.x1 * (d.displayedW / iW) ≤ d.displayedW := by
    have h := mul_le_mul_of_nonneg_right hx1 hsx
    rwa [mul_comm iW, div_mul_cancel₀ _ (ne_of_gt hiW)] at h
  have hy1sy : bbox.y1 * (d.displayedH / iH) ≤ d.displayedH := by
    have h := mul_le_mul_of_nonneg_right hy1 hsy
    rwa [mul_comm iH, div_mul_cancel₀ _ (ne_of_gt hiH)] at h
  have hx0sx : 0 ≤ bbox.x0 * (d.displayedW / iW) := mul_nonneg hx0 hsx
  have hy0sy : 0 ≤ bbox.y0 * (d.displayedH / iH) := mul_nonneg hy0 hsy
  simp only [projectBox, pad]
  refine ⟨by linarith, ?_, by linarith, ?_⟩
  · ring_nf
    ring_nf at hx1sx hx0sx
    nlinarith [hx1sx, hx0sx]
  · ring_nf
    ring_nf at hy1sy hy0sy
    nlinarith [hy1sy, hy0sy]

/-- Witness for claim C6, at the box (100, 50, 200, 80) in a 400 by 200
image and a 300 by 280 container. -/
theorem projectBox_inside_displayed_witness :
    (computeDisplayedRect 300 280 400 200).offsetX
        ≤ (projectBox ⟨100, 50, 200, 80⟩ ⟨400, 200⟩ 300 280).left + pad ∧
    (projectBox ⟨100, 50, 200, 80⟩ ⟨400, 200⟩ 300 280).left + pad
        + ((projectBox ⟨100, 50, 200, 80⟩ ⟨400, 200⟩ 300 280).width - 2 * pad)
      ≤ (computeDisplayedRect 300 280 400 200).offsetX
        + (computeDisplayedRect 300 280 400 200).displayedW ∧
    (computeDisplayedRect 300 280 400 200).offsetY
        ≤ (projectBox ⟨100, 50, 200, 80⟩ ⟨400, 200⟩ 300 280).top + pad ∧
    (projectBox ⟨100, 50, 200, 80⟩ ⟨400, 200⟩ 300 280).top + pad
        + ((projectBox ⟨100, 50, 200, 80⟩ ⟨400, 200⟩ 300 280).height - 2 * pad)
      ≤ (computeDisplayedRect 300 280 400 200).offsetY
        + (computeDisplayedRect 300 280 400 200).displayedH :=
  projectBox_inside_displayed ⟨100, 50, 200, 80⟩ 400 200 300 280 (by norm_num)
    (by norm_num) (by norm_num) (by norm_num) (by norm_num) (by norm_num)
    (by norm_num) (by norm_num) (by norm_num)

/-- Claim C7: `isSensitiveBox` holds exactly when some entity of the word
has a category in the sensitive set and a present score at least 0.85;
a word with an empty entities sequence is never sensitive. -/
theorem isSensitiveBox_iff (b : OCRBoxWithNER) :
    (isSensitiveBox b = true ↔
      ∃ e ∈ b.entities, e.entity ∈ SENSITIVE_CATEGORIES ∧
        ∃ s, e.score = some s ∧ (0.85 : ℚ) ≤ s) ∧
    (b.entities = [] → isSensitiveBox b = false) := by
  have hpos : (0 : ℚ) < 0.85 := by norm_num
  constructor
  · cases hE : b.entities with
    | nil => simp [isSensitiveBox, isSensitiveBoxAt, hE]
    | cons e es =>
      simp only [isSensitiveBox, isSensitiveBoxAt, hE, MIN_ENTITY_SCORE,
        List.length_cons, Nat.succ_ne_zero, if_false, List.any_eq_true,
        Bool.and_eq_true, decide_eq_true_eq]
      constructor
      · rintro ⟨x, hx, hc, hs⟩
        exact ⟨x, hx, by simpa using hc, (score_getD_iff x.score 0.85 hpos).mp hs⟩
      · rintro ⟨x, hx, hc, hs⟩
        exact ⟨x, hx, by simpa using hc, (score_getD_iff x.score 0.85 hpos).mpr hs⟩
  · intro hE
    simp [isSensitiveBox, isSensitiveBoxAt, hE]

/-- Claim C8: the sensitivity predicate is antitone in the score
threshold: sensitive at threshold T implies sensitive at any threshold
at most T. -/
theorem isSensitiveBoxAt_antitone (b : OCRBoxWithNER) (T T' : ℚ)
    (hle : T' ≤ T) (h : isSensitiveBoxAt T b = true) :
    isSensitiveBoxAt T' b = true := by
  unfold isSensitiveBoxAt at h ⊢
  by_cases hE : b.entities.length = 0
  · rw [if_pos hE] at h
    cases h
  · rw [if_neg hE] at h ⊢
    simp only [List.any_eq_true, Bool.and_eq_true, decide_eq_true_eq] at h ⊢
    obtain ⟨e, he, hc, hs⟩ := h
    exact ⟨e, he, hc, le_trans hle hs⟩

/-- Witness for claim C8: a box sensitive at the source threshold 0.85 is
still sensitive at the lower threshold 4/5. -/
theorem isSensitiveBoxAt_antitone_witness :
    isSensitiveBoxAt (4/5) wSensBox = true :=
  isSensitiveBoxAt_antitone wSensBox MIN_ENTITY_SCORE (4/5)
    (by norm_num [MIN_ENTITY_SCORE])
    (by norm_num [isSensitiveBoxAt, wSensBox, MIN_ENTITY_SCORE,
      SENSITIVE_CATEGORIES])

/-- Claim C9: an absent score is treated as zero by the `?? 0` guard, so
a word whose entities all lack a score is never sensitive under any
positive threshold, whatever the categories. -/
theorem scoreless_entities_never_sensitive (b : OCRBoxWithNER) (T : ℚ)
    (hT : 0 < T) (hall : ∀ e ∈ b.entities, e.score = none) :
    isSensitiveBoxAt T b = false := by
  unfold isSensitiveBoxAt
  by_cases hE : b.entities.length = 0
  · rw [if_pos hE]
  · rw [if_neg hE]
    rw [List.any_eq_false]
    intro e he
    have hn := hall e he
    have hnle : ¬ (T ≤ (0 : ℚ)) := not_le.mpr hT
    simp [hn, hnle]

/-- Witness for claim C9: a box whose single entity has category EMAIL
but no score is not sensitive at the source threshold. -/
theorem scoreless_entities_never_sensitive_witness :
    isSensitiveBoxAt MIN_ENTITY_SCORE wNoScoreBox = false :=
  scoreless_entities_never_sensitive wNoScoreBox MIN_ENTITY_SCORE
    (by norm_num [MIN_ENTITY_SCORE])
    (by intro e he; simp [wNoScoreBox] at he; subst he; rfl)

/-- Claim C10: when an image dimension is zero, `computeDisplayedRect`
is guarded and returns the full container with zero offsets, but
`projectBox` has no guard: its scale factor divides by the zero
dimension, and the horizontal (respectively vertical) coordinates of the
returned rectangle are non finite (infinite or NaN) in JavaScript
arithmetic. -/
theorem projectBoxJS_degenerate (bbox : BBox) (img : ImageSize) (cW cH : ℚ)
    (h : img.width = 0 ∨ img.height = 0) :
    computeDisplayedRect cW cH img.width img.height = ⟨cW, cH, 0, 0⟩ ∧
    (img.width = 0 → (projectBoxJS bbox img cW cH).left.isFinite = false ∧
        (projectBoxJS bbox img cW cH).width.isFinite = false) ∧
    (img.height = 0 → (projectBoxJS bbox img cW cH).top.isFinite = false ∧
        (projectBoxJS bbox img cW cH).height.isFinite = false) := by
  have hrect : computeDisplayedRect cW cH img.width img.height
      = ⟨cW, cH, 0, 0⟩ := by
    unfold computeDisplayedRect
    rw [if_pos h]
  have hpad2 : JSNum.mul (JSNum.num pad) (JSNum.num 2)
      = JSNum.num (pad * 2) := rfl
  refine ⟨hrect, ?_, ?_⟩
  · intro hw
    have hsx : (JSNum.div
        (.num (computeDisplayedRect cW cH img.width img.height).displayedW)
        (.num img.width)).isFinite = false := by
      rw [hw]
      exact JSNum.div_num_zero _
    constructor
    · dsimp only [projectBoxJS]
      exact JSNum.nonfin_sub_num _ _
        (JSNum.num_add_nonfin _ _ (JSNum.num_mul_nonfin _ _ hsx))
    · dsimp only [projectBoxJS]
      rw [hpad2]
      exact JSNum.nonfin_add_num _ _ (JSNum.num_mul_nonfin _ _ hsx)
  · intro hh
    have hsy : (JSNum.div
        (.num (computeDisplayedRect cW cH img.width img.height).displayedH)
        (.num img.height)).isFinite = false := by
      rw [hh]
      exact JSNum.div_num_zero _
    constructor
    · dsimp only [projectBoxJS]
      exact JSNum.nonfin_sub_num _ _
        (JSNum.num_add_nonfin _ _ (JSNum.num_mul_nonfin _ _ hsy))
    · dsimp only [projectBoxJS]
      rw [hpad2]
      exact JSNum.nonfin_add_num _ _ (JSNum.num_mul_nonfin _ _ hsy)

/-- Witness for claim C10, at a zero width image of height 100, the box
(1, 2, 3, 4) and a 300 by 280 container. -/
theorem projectBoxJS_degenerate_witness :
    computeDisplayedRect 300 280 (ImageSize.mk 0 100).width
        (ImageSize.mk 0 100).height = ⟨300, 280, 0, 0⟩ ∧
    ((ImageSize.mk 0 100).width = 0 →
        (projectBoxJS ⟨1, 2, 3, 4⟩ ⟨0, 100⟩ 300 280).left.isFinite = false ∧
        (projectBoxJS ⟨1, 2, 3, 4⟩ ⟨0, 100⟩ 300 280).width.isFinite = false) ∧
    ((ImageSize.mk 0 100).height = 0 →
        (projectBoxJS ⟨1, 2, 3, 4⟩ ⟨0, 100⟩ 300 280).top.isFinite = false ∧
        (projectBoxJS ⟨1, 2, 3, 4⟩ ⟨0, 100⟩ 300 280).height.isFinite = false) :=
  projectBoxJS_degenerate ⟨1, 2, 3, 4⟩ ⟨0, 100⟩ 300 280 (Or.inl rfl)

end SmurfsProject
